import Mathlib

/-!
Verification of the evidence feature-encoding layer of bayou
(src/ml/bayou/core/evidence.py), as a shallow embedding in Lean 4.

Modelling conventions:
- Python dicts / dynamic object attribute sets are modelled as functions
  String → Option JValue (none = key/attribute absent).
- Python code that can raise an exception is modelled as Option- or
  Except-valued (none / .error = the exception is raised).
- Constants and the helper split_camel live in bayou/core/utils, which is
  not part of the given sources; those definitions are modelled from the
  spec and marked as such in their doc comments.
-/

/-- Configuration values stored in a config record (JSON scalars suffice for
the attributes the encoder config carries: names, sizes, flags). -/
inductive JValue where
  | str (s : String)
  | num (n : Int)
  | bool (b : Bool)
deriving DecidableEq, Repr

/-- Dynamic attribute state of an Evidence instance: Python object attributes
set via setattr, looked up via getattr. -/
def AttrState : Type := String → Option JValue

/-- Modelled from the spec: the CONFIG_ENCODER attribute list of
bayou/core/utils (not under src/), the recognized configuration attribute
set of an evidence kind: a name, size parameters and a tile factor. -/
def CONFIG_ENCODER : List String := ["name", "units", "tile"]

/-- Embedding of Evidence.init_config (evidence.py lines 14-17): for each
attribute in the recognized list, setattr(self, attr, evidence[attr]).
The dict access evidence[attr] raises KeyError when absent (modelled as
none).  The trailing load_embedding(save_dir) call is file I/O on the save
directory and does not touch the attribute state, so it is not modelled. -/
def init_config (encoder : List String) (evidence : AttrState) (st : AttrState) :
    Option AttrState :=
  match encoder with
  | [] => some st
  | attr :: rest =>
      match evidence attr with
      | none => none
      | some v => init_config rest evidence (fun a => if a = attr then some v else st a)

/-- Embedding of Evidence.dump_config (evidence.py lines 19-21): the record
with each recognized attribute read back from the instance, in attribute-list
order.  getattr on an attribute that was never set raises AttributeError
(modelled as none). -/
def dump_config (encoder : List String) (st : AttrState) :
    Option (List (String × JValue)) :=
  match encoder with
  | [] => some []
  | attr :: rest =>
      match st attr with
      | none => none
      | some v => (dump_config rest st).map (fun l => (attr, v) :: l)

theorem init_config_spec (encoder : List String) (evidence : AttrState) (st : AttrState)
    (h : ∀ a ∈ encoder, (evidence a).isSome) :
    ∃ st', init_config encoder evidence st = some st' ∧
      ∀ a, st' a = if a ∈ encoder then evidence a else st a := by
  induction encoder generalizing st with
  | nil => exact ⟨st, rfl, fun a => by simp⟩
  | cons attr rest ih =>
      have hattr : (evidence attr).isSome := h attr (by simp)
      obtain ⟨v, hv⟩ := Option.isSome_iff_exists.mp hattr
      obtain ⟨st', hst', hpt⟩ :=
        ih (fun a => if a = attr then some v else st a)
          (fun a ha => h a (List.mem_cons_of_mem _ ha))
      refine ⟨st', ?_, ?_⟩
      · simp [init_config, hv, hst']
      · intro a
        rcases Decidable.em (a ∈ rest) with hmem | hmem
        · simp [hpt a, hmem, List.mem_cons_of_mem _ hmem]
        · rcases Decidable.em (a = attr) with heq | heq
          · subst heq
            simp [hpt a, hmem, hv]
          · simp [hpt a, hmem, heq]

theorem dump_config_congr (encoder : List String) (f g : AttrState)
    (h : ∀ a ∈ encoder, f a = g a) :
    dump_config encoder f = dump_config encoder g := by
  induction encoder with
  | nil => rfl
  | cons attr rest ih =>
      have hattr := h attr (by simp)
      have hrest := ih (fun a ha => h a (List.mem_cons_of_mem _ ha))
      simp [dump_config, hattr, hrest]

/-- C1.  Config round-trip: when the config record defines every recognized
attribute, init_config followed by dump_config yields exactly the config
record restricted to the recognized attribute list (reading the attributes
out of the original record in attribute-list order is that restriction).
Stated for an arbitrary attribute list, so it covers the CONFIG_ENCODER
list whatever its entries are. -/
theorem init_config_dump_config_roundtrip
    (encoder : List String) (evidence : AttrState) (st : AttrState)
    (h : ∀ a ∈ encoder, (evidence a).isSome) :
    (init_config encoder evidence st).bind (dump_config encoder) =
      dump_config encoder evidence := by
  obtain ⟨st', hst', hpt⟩ := init_config_spec encoder evidence st h
  rw [hst']
  show dump_config encoder st' = dump_config encoder evidence
  exact dump_config_congr encoder st' evidence (fun a ha => by simp [hpt a, ha])

/-- Concrete config record over the spec-modelled CONFIG_ENCODER list,
used as round-trip witness. -/
def sampleEvidenceCfg : AttrState := fun a =>
  if a = "name" then some (JValue.str "keywords")
  else if a = "units" then some (JValue.num 64)
  else if a = "tile" then some (JValue.num 2)
  else none

/-- C1 witness: the round-trip law at a concrete config record containing
every recognized attribute. -/
theorem init_config_dump_config_roundtrip_witness :
    (init_config CONFIG_ENCODER sampleEvidenceCfg (fun _ => none)).bind
        (dump_config CONFIG_ENCODER) =
      dump_config CONFIG_ENCODER sampleEvidenceCfg :=
  init_config_dump_config_roundtrip CONFIG_ENCODER sampleEvidenceCfg (fun _ => none)
    (by decide)

/-- The concrete evidence kinds defined in evidence.py: the classes
Keywords, Types, Context and Javadoc extending Evidence. -/
inductive EvKind where
  | keywords
  | types
  | context
  | javadoc
deriving DecidableEq, Repr

/-- Rendering of a config value for the TypeError message
"Invalid evidence name: {}".format(name). -/
def jvalueText : JValue → String
  | JValue.str s => s
  | JValue.num n => toString n
  | JValue.bool b => toString b

/-- The if/elif dispatch of Evidence.read_config (evidence.py lines 27-35):
the three string comparisons against keywords, types, context; any other
value of the name field (javadoc included) falls through to the TypeError
branch (none). -/
def evidenceOfName (v : JValue) : Option EvKind :=
  if v = JValue.str "keywords" then some EvKind.keywords
  else if v = JValue.str "types" then some EvKind.types
  else if v = JValue.str "context" then some EvKind.context
  else none

/-- Embedding of Evidence.read_config (evidence.py lines 23-38): walk the
config list in order; per entry read its name field (KeyError when absent),
dispatch to the matching kind or raise TypeError with the invalid-name
message, then run init_config on a fresh instance and collect it.  An
exception at any entry aborts the whole loop (Except errors propagate). -/
def read_config (encoder : List String) :
    List AttrState → Except String (List (EvKind × AttrState))
  | [] => Except.ok []
  | ev :: rest =>
      match ev "name" with
      | none => Except.error "KeyError: name"
      | some nv =>
          match evidenceOfName nv with
          | none => Except.error ("Invalid evidence name: " ++ jvalueText nv)
          | some k =>
              match init_config encoder ev (fun _ => none) with
              | none => Except.error "KeyError: missing config attribute"
              | some st =>
                  match read_config encoder rest with
                  | Except.ok l => Except.ok ((k, st) :: l)
                  | Except.error e => Except.error e

/-- Well-formedness of one config entry: it carries a name that the dispatch
recognizes, and defines every recognized configuration attribute. -/
def EntryOk (encoder : List String) (ev : AttrState) : Prop :=
  (∃ nv, ev "name" = some nv ∧ (evidenceOfName nv).isSome) ∧
    ∀ a ∈ encoder, (ev a).isSome

/-- C2.  Registry dispatch: (a) on a list of well-formed entries read_config
succeeds and builds, per entry, the instance whose kind is exactly what the
name field dispatches to (keywords → Keywords, types → Types,
context → Context); (b) the first entry whose name the dispatch does not
recognize makes read_config raise the invalid-name TypeError; (c) the
dispatch table maps the three recognized names to their kinds and everything
else, javadoc included, to the error branch. -/
theorem read_config_dispatch :
    (∀ encoder js, (∀ ev ∈ js, EntryOk encoder ev) →
       ∃ l, read_config encoder js = Except.ok l ∧
         List.Forall₂ (fun ev (p : EvKind × AttrState) =>
           (ev "name").bind evidenceOfName = some p.1) js l) ∧
    (∀ encoder pre ev rest nv, (∀ e ∈ pre, EntryOk encoder e) →
       ev "name" = some nv → evidenceOfName nv = none →
       read_config encoder (pre ++ ev :: rest) =
         Except.error ("Invalid evidence name: " ++ jvalueText nv)) ∧
    evidenceOfName (JValue.str "keywords") = some EvKind.keywords ∧
    evidenceOfName (JValue.str "types") = some EvKind.types ∧
    evidenceOfName (JValue.str "context") = some EvKind.context ∧
    evidenceOfName (JValue.str "javadoc") = none := by
  refine ⟨?_, ?_, by decide, by decide, by decide, by decide⟩
  · intro encoder js hjs
    induction js with
    | nil => exact ⟨[], rfl, List.Forall₂.nil⟩
    | cons ev rest ih =>
        obtain ⟨⟨nv, hnv, hk⟩, hattrs⟩ := hjs ev (by simp)
        obtain ⟨k, hk'⟩ := Option.isSome_iff_exists.mp hk
        obtain ⟨st, hst, _⟩ := init_config_spec encoder ev (fun _ => none) hattrs
        obtain ⟨l, hl, hfa⟩ := ih (fun e he => hjs e (List.mem_cons_of_mem _ he))
        refine ⟨(k, st) :: l, ?_, ?_⟩
        · simp [read_config, hnv, hk', hst, hl]
        · exact List.Forall₂.cons (by simp [hnv, hk']) hfa
  · intro encoder pre ev rest nv hpre hnv hbad
    induction pre with
    | nil => simp [read_config, hnv, hbad]
    | cons e pre' ih =>
        obtain ⟨⟨nv', hnv', hk⟩, hattrs⟩ := hpre e (by simp)
        obtain ⟨k, hk'⟩ := Option.isSome_iff_exists.mp hk
        obtain ⟨st, hst, _⟩ := init_config_spec encoder e (fun _ => none) hattrs
        have hrec := ih (fun x hx => hpre x (List.mem_cons_of_mem _ hx))
        simp [read_config, hnv', hk', hst, hrec]

/-- Config entry with the unrecognized name javadoc. -/
def sampleJavadocCfg : AttrState := fun a =>
  if a = "name" then some (JValue.str "javadoc") else none

/-- C2 witness: at concrete inputs, a singleton list with a keywords entry
is dispatched to a Keywords instance, and a singleton list with a javadoc
entry raises the invalid-name TypeError. -/
theorem read_config_dispatch_witness :
    (∃ l, read_config CONFIG_ENCODER [sampleEvidenceCfg] = Except.ok l ∧
       List.Forall₂ (fun ev (p : EvKind × AttrState) =>
         (ev "name").bind evidenceOfName = some p.1) [sampleEvidenceCfg] l) ∧
    read_config CONFIG_ENCODER [sampleJavadocCfg] =
      Except.error ("Invalid evidence name: " ++ jvalueText (JValue.str "javadoc")) := by
  constructor
  · exact read_config_dispatch.1 CONFIG_ENCODER [sampleEvidenceCfg]
      (fun ev hev => by
        simp only [List.mem_singleton] at hev
        subst hev
        exact ⟨⟨JValue.str "keywords", rfl, by decide⟩, by decide⟩)
  · exact read_config_dispatch.2.1 CONFIG_ENCODER [] sampleJavadocCfg [] (JValue.str "javadoc")
      (by simp) rfl (by decide)

/-- Program record: the externally supplied mapping with the optional fields
the evidence kinds read (evidence.py accesses program with the in operator
and indexing for keywords, types, context, javadoc). -/
structure Program where
  keywords : Option (List String) := none
  types : Option (List String) := none
  context : Option (List String) := none
  javadoc : Option String := none

/-- Embedding of Keywords.read_data_point (evidence.py lines 62-65): the
keywords field when present else the empty list, deduplicated.  Python
deduplicates through list(set(...)), whose order is unspecified; the model
fixes first-occurrence order, which has the same elements and likewise no
duplicates. -/
def Keywords.read_data_point (program : Program) : List String :=
  (program.keywords.getD []).dedup

/-- Embedding of Types.read_data_point (evidence.py lines 94-97): the types
field when present else the empty list, deduplicated (order modelled as
first occurrence, as for Keywords). -/
def Types.read_data_point (program : Program) : List String :=
  (program.types.getD []).dedup

/-- Embedding of Context.read_data_point (evidence.py lines 128-131): the
context field when present else the empty list, deduplicated (order
modelled as first occurrence, as for Keywords). -/
def Context.read_data_point (program : Program) : List String :=
  (program.context.getD []).dedup

/-- C3.  Dedup invariant: on every program record the token lists returned
by the Keywords, Types and Context read_data_point contain no duplicates
(in particular when the record field itself holds duplicates), and a record
missing the field yields the empty list. -/
theorem read_data_point_dedup (program : Program) :
    (Keywords.read_data_point program).Nodup ∧
    (Types.read_data_point program).Nodup ∧
    (Context.read_data_point program).Nodup ∧
    (program.keywords = none → Keywords.read_data_point program = []) ∧
    (program.types = none → Types.read_data_point program = []) ∧
    (program.context = none → Context.read_data_point program = []) := by
  refine ⟨List.nodup_dedup _, List.nodup_dedup _, List.nodup_dedup _, ?_, ?_, ?_⟩ <;>
    intro h <;>
    simp [Keywords.read_data_point, Types.read_data_point, Context.read_data_point, h]

/-- Program record whose keywords field holds duplicates and whose other
fields are absent. -/
def sampleProgram : Program :=
  { keywords := some ["add", "list", "add"], types := none, context := none }

/-- C3 witness: at a concrete record with duplicated keywords and missing
types/context fields, the extracted lists are duplicate-free and the missing
fields give empty lists. -/
theorem read_data_point_dedup_witness :
    (Keywords.read_data_point sampleProgram).Nodup ∧
    Types.read_data_point sampleProgram = [] ∧
    Context.read_data_point sampleProgram = [] :=
  ⟨(read_data_point_dedup sampleProgram).1,
   (read_data_point_dedup sampleProgram).2.2.2.2.1 rfl,
   (read_data_point_dedup sampleProgram).2.2.2.2.2 rfl⟩

/-- Dot product of a row vector with the j-th column of a weight matrix
(rows of w indexed by input position, entries beyond w treated as absent). -/
def dotCol (x : List Int) (w : List (List Int)) (j : Nat) : Int :=
  ((x.zip w).map (fun p => p.1 * p.2.getD j 0)).sum

/-- Affine transform y = x*W + b on one row: output coordinate j is the dot
product of x with column j of w plus b_j; the output length is the bias
length.  This models both tf.layers.dense (kernel and bias created by the
layer) and tf.nn.xw_plus_b in Keywords/Types/Context.encode. -/
def affine (w : List (List Int)) (b : List Int) (x : List Int) : List Int :=
  (List.range b.length).map (fun j => dotCol x w j + b.getD j 0)

/-- Learned parameters appearing in one encode call: the dense layer kernel
and bias (units outputs) and the variables w : [units, latent_size] and
b : [latent_size]. -/
structure EncodeParams where
  denseKernel : List (List Int)
  denseBias : List Int
  w : List (List Int)
  b : List Int

/-- Embedding of Keywords.encode (evidence.py lines 73-79): a dense layer
over the batch, then xw_plus_b into the latent space, and the resulting
batch of latent encodings replicated tile times ([latent_encoding] * tile).
The variable_scope only namespaces the parameters and is carried by the
params argument. -/
def Keywords.encode (params : EncodeParams) (tile : Nat) (inputs : List (List Int)) :
    List (List (List Int)) :=
  let encoding := inputs.map (affine params.denseKernel params.denseBias)
  let latent_encoding := encoding.map (affine params.w params.b)
  List.replicate tile latent_encoding

/-- Embedding of Types.encode (evidence.py lines 105-111): textually the
same computation as Keywords.encode under the types variable scope. -/
def Types.encode (params : EncodeParams) (tile : Nat) (inputs : List (List Int)) :
    List (List (List Int)) :=
  let encoding := inputs.map (affine params.denseKernel params.denseBias)
  let latent_encoding := encoding.map (affine params.w params.b)
  List.replicate tile latent_encoding

/-- Embedding of Context.encode (evidence.py lines 139-145): textually the
same computation as Keywords.encode under the context variable scope. -/
def Context.encode (params : EncodeParams) (tile : Nat) (inputs : List (List Int)) :
    List (List (List Int)) :=
  let encoding := inputs.map (affine params.denseKernel params.denseBias)
  let latent_encoding := encoding.map (affine params.w params.b)
  List.replicate tile latent_encoding

theorem affine_length (w : List (List Int)) (b : List Int) (x : List Int) :
    (affine w b x).length = b.length := by
  simp [affine]

theorem replicate_encode_spec (f : EncodeParams → Nat → List (List Int) →
      List (List (List Int)))
    (hf : ∀ p t i, f p t i =
      List.replicate t ((i.map (affine p.denseKernel p.denseBias)).map (affine p.w p.b)))
    (params : EncodeParams) (tile : Nat) (inputs : List (List Int))
    (latent_size : Nat) (hb : params.b.length = latent_size) :
    (f params tile inputs).length = tile ∧
    (∀ e ∈ f params tile inputs, ∀ e' ∈ f params tile inputs, e = e') ∧
    (∀ e ∈ f params tile inputs, ∀ row ∈ e, row.length = latent_size) := by
  rw [hf]
  refine ⟨List.length_replicate _ _, ?_, ?_⟩
  · intro e he e' he'
    rw [List.eq_of_mem_replicate he, List.eq_of_mem_replicate he']
  · intro e he row hrow
    rw [List.eq_of_mem_replicate he] at hrow
    obtain ⟨y, _, hy⟩ := List.mem_map.mp hrow
    rw [← hy, affine_length, hb]

/-- C4.  Tiling invariant: for every parameter set whose latent bias has
length latent_size, every tile factor and every input batch, the encode of
Keywords, Types and Context returns exactly tile latent encodings, all of
them equal (one latent encoding replicated tile times), and every row of
every returned encoding has length latent_size. -/
theorem encode_tiling (params : EncodeParams) (tile : Nat) (inputs : List (List Int))
    (latent_size : Nat) (hb : params.b.length = latent_size) :
    ((Keywords.encode params tile inputs).length = tile ∧
     (∀ e ∈ Keywords.encode params tile inputs,
        ∀ e' ∈ Keywords.encode params tile inputs, e = e') ∧
     (∀ e ∈ Keywords.encode params tile inputs, ∀ row ∈ e, row.length = latent_size)) ∧
    ((Types.encode params tile inputs).length = tile ∧
     (∀ e ∈ Types.encode params tile inputs,
        ∀ e' ∈ Types.encode params tile inputs, e = e') ∧
     (∀ e ∈ Types.encode params tile inputs, ∀ row ∈ e, row.length = latent_size)) ∧
    ((Context.encode params tile inputs).length = tile ∧
     (∀ e ∈ Context.encode params tile inputs,
        ∀ e' ∈ Context.encode params tile inputs, e = e') ∧
     (∀ e ∈ Context.encode params tile inputs, ∀ row ∈ e, row.length = latent_size)) :=
  ⟨replicate_encode_spec Keywords.encode (fun _ _ _ => rfl) params tile inputs latent_size hb,
   replicate_encode_spec Types.encode (fun _ _ _ => rfl) params tile inputs latent_size hb,
   replicate_encode_spec Context.encode (fun _ _ _ => rfl) params tile inputs latent_size hb⟩

/-- Concrete encode parameters with latent size 2. -/
def sampleParams : EncodeParams :=
  { denseKernel := [[1, 0, 2], [0, 1, 1]],
    denseBias := [1, 2, 3],
    w := [[1, 1], [2, 0], [0, 3]],
    b := [5, 7] }

/-- C4 witness: at concrete parameters, tile factor 3 and a two-row batch,
encode returns 3 encodings, all equal, with every row of length 2. -/
theorem encode_tiling_witness :
    (Keywords.encode sampleParams 3 [[1, 2], [0, 1]]).length = 3 ∧
    (∀ e ∈ Keywords.encode sampleParams 3 [[1, 2], [0, 1]], ∀ row ∈ e, row.length = 2) :=
  ⟨(encode_tiling sampleParams 3 [[1, 2], [0, 1]] 2 rfl).1.1,
   (encode_tiling sampleParams 3 [[1, 2], [0, 1]] 2 rfl).1.2.2⟩

/-- Model of the Python str.split(sep) for a one-character separator: splits
at every occurrence of sep, keeping empty pieces; the result is never the
empty list (the empty string splits to one empty piece). -/
def splitOnChar (sep : Char) : List Char → List (List Char)
  | [] => [[]]
  | c :: rest =>
      match splitOnChar sep rest with
      | [] => [[]]
      | t :: ts => if c = sep then [] :: t :: ts else (c :: t) :: ts

theorem splitOnChar_ne_nil (sep : Char) (cs : List Char) : splitOnChar sep cs ≠ [] := by
  cases cs with
  | nil => simp [splitOnChar]
  | cons c rest =>
      simp only [splitOnChar]
      rcases h : splitOnChar sep rest with _ | ⟨t, ts⟩
      · simp
      · rcases Decidable.em (c = sep) with hc | hc <;> simp [hc]

theorem splitOnChar_of_not_mem (sep : Char) (cs : List Char) (h : sep ∉ cs) :
    splitOnChar sep cs = [cs] := by
  induction cs with
  | nil => rfl
  | cons c rest ih =>
      have hc : c ≠ sep := fun he => h (by simp [he])
      have hrest := ih (fun hm => h (List.mem_cons_of_mem _ hm))
      simp [splitOnChar, hrest, hc]

/-- Model of the Python indexing split(...)[0], total because splitOnChar
never returns the empty list. -/
def headPiece (l : List (List Char)) : List Char := l.headI

/-- Model of the Python indexing split(...)[-1], total for the same reason. -/
def lastPiece (l : List (List Char)) : List Char := (l.getLast?).getD []

/-- The part of a call string before the first opening parenthesis:
call.split('(')[0]. -/
def beforeParen (call : List Char) : List Char := headPiece (splitOnChar '(' call)

/-- Insertion of token breaks at camel-case transition boundaries: a break
between a lower-case letter or digit and a following upper-case letter, and
a break before an upper-case letter that begins an upper-then-lower
sub-word (as in splitting ABCd between B and C). -/
def camelMark : List Char → List Char
  | [] => []
  | [c] => [c]
  | c :: d :: rest =>
      if (c.isLower || c.isDigit) && d.isUpper then
        c :: '#' :: camelMark (d :: rest)
      else if c.isUpper && d.isUpper &&
          (match rest with | e :: _ => e.isLower | [] => false) then
        c :: '#' :: camelMark (d :: rest)
      else
        c :: camelMark (d :: rest)

/-- Whitespace in identifiers also separates tokens (stray spaces around
arguments are not part of any sub-word). -/
def isBreak (c : Char) : Bool := c = '#' || c.isWhitespace

/-- Splitting a marked character list into raw token pieces at breaks. -/
def splitToks : List Char → List (List Char)
  | [] => [[]]
  | c :: rest =>
      match splitToks rest with
      | [] => [[]]
      | t :: ts => if isBreak c then [] :: t :: ts else (c :: t) :: ts

/-- Modelled from the spec: the camel-case tokenizer split_camel of
bayou/core/utils (not under src/).  Per the spec it splits an identifier at
internal case-transition boundaries into lower-case sub-words; whitespace
likewise separates sub-words and empty pieces are dropped, matching the
worked Context example of the spec. -/
def split_camel (s : List Char) : List String :=
  ((splitToks (camelMark s)).filter (fun t => !t.isEmpty)).map
    (fun t => String.mk (t.map Char.toLower))

/-- Embedding of Keywords.from_call (evidence.py lines 81-85): split the
part before the first parenthesis on dots; binding cls, name = split[-2:]
raises ValueError when fewer than two dot-segments exist (none); otherwise
the call returns no tokens when cls equals name and split_camel(name)
otherwise. -/
def Keywords.from_call (call : String) : Option (List String) :=
  let split := splitOnChar '.' (beforeParen call.toList)
  match split.reverse with
  | name :: cls :: _ => some (if cls = name then [] else split_camel name)
  | _ => none

/-- Test of the Python q[0].isupper() on a dot-segment, false on the empty
segment (where Python would raise IndexError instead; the raising case is
handled separately in Types.from_call). -/
def startsUpper : List Char → Bool
  | [] => false
  | c :: _ => c.isUpper

/-- Embedding of Types.from_call (evidence.py lines 113-119): the
dot-segments before the first parenthesis excluding the last; the
comprehension filtering segments on q[0].isupper() raises IndexError when
any segment is empty (none); the filtered list is reversed and split[0]
raises IndexError when it is empty (none); otherwise camel-split tokens of
the first segment, then of the second when present. -/
def Types.from_call (call : String) : Option (List String) :=
  let segs := (splitOnChar '.' (beforeParen call.toList)).dropLast
  if segs.any List.isEmpty then none
  else
    match (segs.filter startsUpper).reverse with
    | [] => none
    | inner :: rest =>
        some (split_camel inner ++
          (match rest with | outer :: _ => split_camel outer | [] => []))

/-- Model of re.sub with pattern matching a less-than sign and the rest of
its line: within each line, everything from the first less-than sign to the
end of the line is removed (the dot of the pattern does not cross
newlines). -/
def stripGenerics (cs : List Char) : List Char :=
  List.intercalate ['\n']
    ((splitOnChar '\n' cs).map (List.takeWhile (fun c => c ≠ '<')))

/-- Model of re.sub removing every occurrence of the two-character array
marker, scanning left to right without overlap. -/
def removeArrayMarker : List Char → List Char
  | '[' :: ']' :: rest => removeArrayMarker rest
  | c :: rest => c :: removeArrayMarker rest
  | [] => []

/-- Embedding of Context.from_call (evidence.py lines 147-154): the indexing
call.split('(')[1] raises IndexError when the call has no opening
parenthesis (none); otherwise the substring up to the next closing
parenthesis is split on commas into arguments, each argument replaced by
its last dot-segment, generic suffixes and array markers removed, each
cleaned argument camel-split, the token lists concatenated and empty tokens
dropped. -/
def Context.from_call (call : String) : Option (List String) :=
  match splitOnChar '(' call.toList with
  | _ :: afterParen :: _ =>
      let argstr := headPiece (splitOnChar ')' afterParen)
      let args := splitOnChar ',' argstr
      let args := args.map (fun arg => lastPiece (splitOnChar '.' arg))
      let args := args.map stripGenerics
      let args := args.map removeArrayMarker
      some (((args.map split_camel).flatten).filter (fun c => !(c = "")))
  | _ => none

/-- C7.  Constructor boundary: whenever the part of the call before the
first parenthesis has at least two dot-segments and its last two
dot-segments are equal (a constructor-style call, class segment equal to
member segment), Keywords.from_call returns the empty token list. -/
theorem keywords_from_call_constructor (call : String) (name : List Char)
    (rest : List (List Char))
    (h : (splitOnChar '.' (beforeParen call.toList)).reverse = name :: name :: rest) :
    Keywords.from_call call = some [] := by
  have h2 : (splitOnChar '.' (beforeParen call.data)).reverse = name :: name :: rest := h
  simp [Keywords.from_call, h2]

/-- C7 witness: a constructor-style call with equal class and member
segments yields the empty token list. -/
theorem keywords_from_call_constructor_witness :
    Keywords.from_call "A.A(x)" = some [] :=
  keywords_from_call_constructor "A.A(x)" ['A'] [] (by decide)

/-- C8.  Context extraction example: on the call m(a.B<T>, c[]) the
argument pipeline (split on commas, last dot-segment, strip generics and
array markers, camel-split, drop empties) produces exactly the tokens b
and c. -/
theorem context_from_call_example :
    Context.from_call "m(a.B<T>, c[])" = some ["b", "c"] := by decide

/-- C9.  Reachable error branch of Types.from_call: on every call string
in which no dot-segment before the first parenthesis (excluding the last
segment) starts with an upper-case letter, Types.from_call raises an
exception (the filtered segment list is empty and split[0] is out of
range) instead of returning a token list. -/
theorem types_from_call_error (call : String)
    (h : ∀ q ∈ (splitOnChar '.' (beforeParen call.toList)).dropLast,
      startsUpper q = false) :
    Types.from_call call = none := by
  have hfilter : List.filter startsUpper
      (splitOnChar '.' (beforeParen call.data)).dropLast = [] :=
    List.filter_eq_nil_iff.mpr (fun a ha => by simp [h a ha])
  simp only [Types.from_call]
  rcases h2 : (splitOnChar '.' (beforeParen call.data)).dropLast.any List.isEmpty with _ | _
  · simp [h2, hfilter]
  · simp [h2]

/-- C9 witness: the call foo(x), whose only dot-segment is the last, makes
Types.from_call fail. -/
theorem types_from_call_error_witness : Types.from_call "foo(x)" = none :=
  types_from_call_error "foo(x)" (by decide)

/-- C10.  Reachable error branch of Keywords.from_call: on every call
string whose part before the first parenthesis contains no dot, the
unpacking cls, name = split[-2:] raises an exception (one value where two
are expected) instead of returning a token list. -/
theorem keywords_from_call_error (call : String)
    (h : '.' ∉ beforeParen call.toList) :
    Keywords.from_call call = none := by
  have h2 : splitOnChar '.' (beforeParen call.data) = [beforeParen call.data] :=
    splitOnChar_of_not_mem '.' _ h
  simp [Keywords.from_call, h2]

/-- C10 witness: the call add(x), with no dot before the parenthesis, makes
Keywords.from_call fail. -/
theorem keywords_from_call_error_witness : Keywords.from_call "add(x)" = none :=
  keywords_from_call_error "add(x)" (by decide)

/-- Modelled from the spec: the unknown/missing sentinel token UNK of
bayou/core/utils (not under src/); a single ASCII word with no internal
whitespace. -/
def UNK : String := "_UNK_"

/-- Model of the Python str.split() with no separator: split on whitespace
runs, dropping empty pieces. -/
def pySplitWhite (s : String) : List String :=
  ((splitToks (s.toList.map (fun c => if c.isWhitespace then '#' else c))).filter
    (fun t => !t.isEmpty)).map String.mk

/-- Test of the Python str.encode with the ascii codec: it succeeds exactly
when every character is an ASCII code point (below 128). -/
def isAsciiOnly (s : String) : Bool := s.toList.all (fun c => c.toNat ≤ 127)

/-- Embedding of Javadoc.read_data_point (evidence.py lines 160-169): take
the javadoc field when present else None; a falsy value (absent or the
empty string) is replaced by the UNK sentinel; a string whose ascii
encoding fails (some character above 127) is replaced by the UNK sentinel;
the result is whitespace-split. -/
def Javadoc.read_data_point (program : Program) : List String :=
  let javadoc := match program.javadoc with
    | none => UNK
    | some s => if s = "" then UNK else s
  let javadoc := if isAsciiOnly javadoc then javadoc else UNK
  pySplitWhite javadoc

/-- C5.  Javadoc sentinel defaulting: whenever the javadoc field is absent,
or is the empty string, or contains a non-ASCII character, the method
returns the whitespace-split of the UNK sentinel instead of raising. -/
theorem javadoc_read_data_point_sentinel (program : Program)
    (h : program.javadoc = none ∨ program.javadoc = some "" ∨
      ∃ s, program.javadoc = some s ∧ isAsciiOnly s = false) :
    Javadoc.read_data_point program = pySplitWhite UNK := by
  have hUNK : isAsciiOnly UNK = true := by decide
  rcases h with h | h | ⟨s, hs, hbad⟩
  · simp [Javadoc.read_data_point, h, hUNK]
  · simp [Javadoc.read_data_point, h, hUNK]
  · rcases Decidable.em (s = "") with he | he
    · simp [Javadoc.read_data_point, hs, he, hUNK]
    · simp [Javadoc.read_data_point, hs, he, hbad]

/-- Program record with a non-ASCII javadoc string. -/
def sampleProgramBadDoc : Program := { javadoc := some "héllo" }

/-- C5 witness: a record with no javadoc field and a record whose javadoc
contains a non-ASCII character both yield the UNK token list. -/
theorem javadoc_read_data_point_sentinel_witness :
    Javadoc.read_data_point { } = pySplitWhite UNK ∧
    Javadoc.read_data_point sampleProgramBadDoc = pySplitWhite UNK :=
  ⟨javadoc_read_data_point_sentinel { } (Or.inl rfl),
   javadoc_read_data_point_sentinel sampleProgramBadDoc
     (Or.inr (Or.inr ⟨"héllo", rfl, by decide⟩))⟩

/-- Modelled from the spec: the distinguished padding/unknown vocabulary
symbol C0 of bayou/core/utils (not under src/). -/
def C0 : String := "CLASS0"

/-- Model of dict(zip(chars, range(len(chars)))): the id assigned to a word
is the index of its last occurrence in the chars list (a later zip pair
overwrites an earlier one with the same key), none when the word never
occurs. -/
def vocabIdFrom (i : Nat) (chars : List String) (w : String) : Option Nat :=
  match chars with
  | [] => none
  | c :: rest =>
      match vocabIdFrom (i + 1) rest w with
      | some j => some j
      | none => if c = w then some i else none

/-- Lookup in the vocabulary dictionary built by Javadoc.set_dicts. -/
def vocabId (chars : List String) (w : String) : Option Nat := vocabIdFrom 0 chars w

/-- Embedding of Javadoc.set_dicts (evidence.py lines 171-180): in the
pretrained branch the chars list is whatever the persisted config.json
carries (supplied here as the pretrainedChars input); in the corpus branch
it is C0 followed by the deduplicated tokens of the corpus (Python
deduplicates through set, with unspecified order; modelled as
first-occurrence order).  The result pairs the chars list with the
vocabulary dictionary built from it. -/
def set_dicts (pretrained_embed : Bool) (pretrainedChars : List String)
    (data : List (List String)) : List String × (String → Option Nat) :=
  let chars := if pretrained_embed then pretrainedChars
    else C0 :: (data.flatten).dedup
  (chars, vocabId chars)

theorem vocabIdFrom_of_not_mem (i : Nat) (chars : List String) (w : String)
    (h : w ∉ chars) : vocabIdFrom i chars w = none := by
  induction chars generalizing i with
  | nil => rfl
  | cons c rest ih =>
      have hc : c ≠ w := fun he => h (by simp [he])
      have hrest := ih (i + 1) (fun hm => h (List.mem_cons_of_mem _ hm))
      simp [vocabIdFrom, hrest, hc]

/-- C6 counterexample: in the pretrained-embedding branch the vocabulary is
exactly what the persisted chars list carries; with a loaded list not
containing the padding symbol, the vocabulary after set_dicts does not
contain the padding/unknown symbol at all, refuting the claim that it is
always present at a fixed position. -/
theorem set_dicts_padding_counterexample :
    (set_dicts true ["x"] []).2 C0 = none := by decide

/-- C6 (amended).  In the corpus-built branch, whenever the padding symbol
does not occur among the corpus tokens, the vocabulary maps the padding
symbol to the fixed id 0; the pretrained branch carries whatever vocabulary
was persisted, with no such guarantee. -/
theorem set_dicts_padding_corpus (pretrainedChars : List String)
    (data : List (List String)) (h : C0 ∉ data.flatten) :
    (set_dicts false pretrainedChars data).2 C0 = some 0 := by
  have hd : C0 ∉ (data.flatten).dedup := fun hm => h (List.mem_dedup.mp hm)
  simp only [set_dicts, if_neg Bool.false_ne_true, vocabId, vocabIdFrom,
    vocabIdFrom_of_not_mem 1 _ _ hd]
  simp

/-- C6 witness: at a concrete corpus not containing the padding symbol, the
corpus-built vocabulary assigns the padding symbol id 0. -/
theorem set_dicts_padding_corpus_witness :
    (set_dicts false [] [["public"], ["static", "void"]]).2 C0 = some 0 :=
  set_dicts_padding_corpus [] [["public"], ["static", "void"]] (by decide)
